import Mathlib

/-!
Verification of the pylogrouter defensive core against its specification.

The definitions below are shallow embeddings of the functions in
src/pylogrouter/facilities.py and src/pylogrouter/router.py.  Filesystem
state is modelled explicitly (rotation chains as maps from slot index to
optional file contents, lstat results as an inductive type), text is
modelled as Lean strings or character lists, and fallible code returns
Except.
-/

namespace Pylogrouter

/-! ## Path Safety Guard (facilities.py, assert_safe_log_target) -/

/-- Kind of an existing filesystem object as reported by lstat (which never
follows symlinks): S_ISREG, S_ISLNK, or anything else. -/
inductive FileKind where
  | regular : FileKind
  | symlink : FileKind
  | other : FileKind
  deriving DecidableEq

/-- Result of `os.lstat` on the resolved target: the file kind when the call
succeeds, `notFound` for FileNotFoundError, `accessError` for any other
OSError. -/
inductive LStatResult where
  | found (kind : FileKind) : LStatResult
  | notFound : LStatResult
  | accessError : LStatResult
  deriving DecidableEq

/-- Observable facts about a resolved absolute path that
`assert_safe_log_target` inspects: for every ancestor directory
(`absolute_path.parent` and its parents) whether it is a symlink, and the
lstat outcome on the target itself. -/
structure TargetInfo where
  ancestorIsSymlink : List Bool
  lstatResult : LStatResult

/-- Shallow embedding of `assert_safe_log_target` (facilities.py lines
343-365), after resolution to an absolute path: reject if any ancestor
directory is a symlink; then lstat the target, treating FileNotFoundError
as success, any other OSError as rejection; reject a symlink target and any
target that is not a regular file. -/
def assert_safe_log_target (t : TargetInfo) : Except String Unit :=
  if t.ancestorIsSymlink.any id then
    .error "Unsafe log target parent path is symlink"
  else
    match t.lstatResult with
    | .notFound => .ok ()
    | .accessError => .error "Unable to inspect log target"
    | .found .symlink => .error "Unsafe log target is symlink"
    | .found .regular => .ok ()
    | .found .other => .error "Unsafe log target must be a regular file"

/-- Whether an `Except` computation ended in an error. -/
def isErr {ε α : Type} : Except ε α → Bool
  | .error _ => true
  | .ok _ => false

/-! ## File rotation (facilities.py, FileFacility._rotate_files)

The rotation chain of a log file F consists of F itself and its numbered
copies F.1, F.2, ….  We model the chain as a map from the slot index to the
optional file contents: slot 0 is F, slot i is F.i, `none` means the file
does not exist. -/

/-- Rotation-chain state: contents of slot i (0 = the live file F,
i ≥ 1 = the rotated copy F.i), or `none` when that file does not exist. -/
def FS : Type := Nat → Option String

/-- Overwrite slot `i` with `v` (models `write_text` / `unlink`). -/
def fsSet (fs : FS) (i : Nat) (v : Option String) : FS :=
  fun j => if j = i then v else fs j

/-- Models `if src.exists(): src.replace(dst)` — move the contents of slot
`src` to slot `dst` (overwriting dst, removing src) when src exists,
otherwise leave the chain unchanged. -/
def moveIfExists (fs : FS) (src dst : Nat) : FS :=
  match fs src with
  | some v => fun j => if j = src then none else if j = dst then some v else fs j
  | none => fs

/-- The `for idx in range(keep - 1, 0, -1)` loop of `_rotate_files`:
process slots k, k-1, …, 1 in order, moving each slot idx to idx+1 when it
exists. -/
def shift_files (fs : FS) : Nat → FS
  | 0 => fs
  | k + 1 => shift_files (moveIfExists fs (k + 1) (k + 2)) k

/-- Shallow embedding of `FileFacility._rotate_files` (facilities.py lines
617-640), with the path-safety asserts abstracted away (they do not modify
the chain): keep = 0 truncates F in place; keep = N > 0 unlinks F.N if it
exists, shifts F.(N-1)→F.N down to F.1→F.2, moves F→F.1 if F exists, and
recreates an empty F. -/
def rotate_files (fs : FS) (keep : Nat) : FS :=
  if keep = 0 then fsSet fs 0 (some "")
  else
    let fs1 := if (fs keep).isSome then fsSet fs keep none else fs
    let fs2 := shift_files fs1 (keep - 1)
    let fs3 := moveIfExists fs2 0 1
    fsSet fs3 0 (some "")

/-- The concrete chain of the claim's example: F = "newest", F.1 = "older",
no other files. -/
def exampleChain : FS :=
  fun j => if j = 0 then some "newest" else if j = 1 then some "older" else none

/-! ## Message preparation (router.py, LoggerRouter._prepare_message)

Messages are modelled as lists of characters.  `_prepare_message`
normalizes line endings, truncates over the total-length cap with a marker,
drops excess lines with a dropped-count marker, and clips each remaining
line with a marker. -/

/-- One pass of `str.replace("\r\n", "\n")`: left-to-right, non-overlapping. -/
def replaceCrlf : List Char → List Char
  | [] => []
  | '\r' :: '\n' :: rest => '\n' :: replaceCrlf rest
  | c :: rest => c :: replaceCrlf rest

/-- `message.replace("\r\n", "\n").replace("\r", "\n")` (router.py line 466). -/
def pyNormalizeNewlines (s : List Char) : List Char :=
  (replaceCrlf s).map (fun c => if c = '\r' then '\n' else c)

/-- Decimal digit character for d ∈ [0,9] (d ≥ 9 clamps to '9';
only applied to remainders mod 10). -/
def digitChar10 (d : Nat) : Char :=
  match d with
  | 0 => '0' | 1 => '1' | 2 => '2' | 3 => '3' | 4 => '4'
  | 5 => '5' | 6 => '6' | 7 => '7' | 8 => '8' | _ => '9'

/-- Fuel-driven decimal rendering: `fuel` bounds the number of digits, so
the recursion is structural and computations reduce definitionally. -/
def natCharsAux : Nat → Nat → List Char
  | 0, _ => []
  | fuel + 1, n =>
    if n < 10 then [digitChar10 n]
    else natCharsAux fuel (n / 10) ++ [digitChar10 (n % 10)]

/-- Decimal rendering of a natural number, as Python's f-string `{n}` does
(n itself is always enough fuel since n / 10 < n). -/
def natChars (n : Nat) : List Char :=
  natCharsAux (n + 1) n

/-- The total-length truncation marker
`f" ...[message clipped at {max_message_length} chars]"`. -/
def clipMarker (n : Nat) : List Char :=
  " ...[message clipped at ".data ++ natChars n ++ " chars]".data

/-- The dropped-lines marker `f"...[dropped {dropped} line(s)]"`. -/
def droppedMarker (d : Nat) : List Char :=
  "...[dropped ".data ++ natChars d ++ " line(s)]".data

/-- The per-line clipping marker
`f" ...[line clipped at {max_line_length} chars]"`. -/
def lineClipMarker (n : Nat) : List Char :=
  " ...[line clipped at ".data ++ natChars n ++ " chars]".data

/-- `normalized.split("\n")` — Python's split always yields at least one
piece; splitting the empty string yields `[""]`. -/
def splitNl : List Char → List (List Char)
  | [] => [[]]
  | c :: rest =>
    if c = '\n' then [] :: splitNl rest
    else (c :: (splitNl rest).headI) :: (splitNl rest).tail

/-- `"\n".join(lines)`. -/
def joinNl : List (List Char) → List Char
  | [] => []
  | [l] => l
  | l :: ls => l ++ '\n' :: joinNl ls

/-- Truncation over the total-length cap (router.py lines 467-471). -/
def truncateTotal (maxLen : Nat) (s : List Char) : List Char :=
  if s.length > maxLen then s.take maxLen ++ clipMarker maxLen else s

/-- Per-line clipping to the per-line cap (router.py lines 478-485). -/
def clipLine (maxLineLen : Nat) (line : List Char) : List Char :=
  if line.length > maxLineLen then line.take maxLineLen ++ lineClipMarker maxLineLen
  else line

/-- Shallow embedding of `LoggerRouter._prepare_message` (router.py lines
465-486): normalize line endings, truncate with a clipped-length marker if
over the total-length cap, drop excess lines beyond the line-count cap with
a dropped-count marker, clip each remaining line to the per-line cap with a
marker. -/
def prepare_message (maxLen maxLines maxLineLen : Nat) (message : List Char) :
    List Char :=
  let normalized := truncateTotal maxLen (pyNormalizeNewlines message)
  let lines := splitNl normalized
  let lines :=
    if lines.length > maxLines then
      lines.take maxLines ++ [droppedMarker (lines.length - maxLines)]
    else lines
  joinNl (lines.map (clipLine maxLineLen))

/-- Number of lines of a message, as Python's `split("\n")` counts them. -/
def lineCount (s : List Char) : Nat := (splitNl s).length

/-! ## Plain-text file writes (facilities.py, flatten_message and
FileFacility.write) -/

/-- Python's whitespace set, as matched by `\s` in `str` regexes and
stripped by `str.strip()`: ASCII space/tab/LF/VT/FF/CR, the file/group/
record/unit separators, NEL, NBSP, and the Unicode space characters. -/
def pyIsSpace (c : Char) : Bool :=
  let n := c.toNat
  n = 0x20 || n = 0x09 || n = 0x0A || n = 0x0B || n = 0x0C || n = 0x0D ||
    (0x1C ≤ n && n ≤ 0x1F) || n = 0x85 || n = 0xA0 || n = 0x1680 ||
    (0x2000 ≤ n && n ≤ 0x200A) || n = 0x2028 || n = 0x2029 || n = 0x202F ||
    n = 0x205F || n = 0x3000

/-- `re.sub(r"\s*\n\s*", " ", text)` on an already newline-normalized text:
scanning left to right, every maximal whitespace run that contains a newline
is matched in full by the greedy pattern and replaced by a single space;
whitespace runs without a newline never match.  `fuel` bounds the recursion
(the scan consumes at least one character per step). -/
def collapseNlRunsAux : Nat → List Char → List Char
  | 0, _ => []
  | _ + 1, [] => []
  | fuel + 1, c :: rest =>
    if pyIsSpace c then
      let run := List.takeWhile pyIsSpace (c :: rest)
      let rest' := List.dropWhile pyIsSpace rest
      (if '\n' ∈ run then [' '] else run) ++ collapseNlRunsAux fuel rest'
    else c :: collapseNlRunsAux fuel rest

/-- The whitespace-run collapsing of `flatten_message`'s `re.sub`. -/
def collapseNlRuns (s : List Char) : List Char :=
  collapseNlRunsAux (s.length + 1) s

/-- Python's `str.strip()`: drop leading and trailing whitespace. -/
def pyStrip (s : List Char) : List Char :=
  ((s.dropWhile pyIsSpace).reverse.dropWhile pyIsSpace).reverse

/-- Shallow embedding of `flatten_message` (facilities.py lines 232-234):
normalize newlines, collapse every whitespace run containing a newline into
a single space, then strip leading/trailing whitespace. -/
def flatten_message (s : String) : String :=
  ⟨pyStrip (collapseNlRuns (pyNormalizeNewlines s.data))⟩

/-- The flattening step described by the claim (collapse only, no strip),
used to exhibit where the claim and the code diverge. -/
def flattenAsClaimed (s : String) : String :=
  ⟨collapseNlRuns (pyNormalizeNewlines s.data)⟩

/-- The plain-text log line `f"[{timestamp}] [{record.nature}] {compact}\n"`
(facilities.py line 668), with the strftime result abstracted as a
pre-formatted timestamp string. -/
def fileLine (ts nature msg : String) : String :=
  "[" ++ ts ++ "] [" ++ nature ++ "] " ++ flatten_message msg ++ "\n"

/-- The byte size `stat().st_size` of the live file F, 0 when missing. -/
def chainFileSize (fs : FS) : Nat :=
  match fs 0 with
  | some c => c.utf8ByteSize
  | none => 0

/-- The current contents of the live file F ("" when missing — appending
with mode "a" creates the file). -/
def chainFileContent (fs : FS) : String :=
  match fs 0 with
  | some c => c
  | none => ""

/-- Shallow embedding of `FileFacility.write` (facilities.py lines 664-674),
path-safety asserts abstracted away: flatten the message, format the line,
rotate first when the current size plus the encoded line would exceed the
configured max file size, then append the line to F. -/
def file_write (fs : FS) (keep maxSize : Nat) (ts nature msg : String) : FS :=
  let line := fileLine ts nature msg
  let fs' :=
    if chainFileSize fs + line.utf8ByteSize > maxSize then rotate_files fs keep
    else fs
  fsSet fs' 0 (some (chainFileContent fs' ++ line))

/-- A one-file chain whose live file F is empty (used in counterexamples). -/
def emptyChain : FS := fun j => if j = 0 then some "" else none

/-! ## HTML Fragment Validator (facilities.py, StrictHtmlFragmentValidator
and validate_rendered_row_or_raise)

`StrictHtmlFragmentValidator` subclasses the standard library's HTMLParser
and overrides its start-tag/end-tag/self-closing-tag/comment callbacks;
character data, entity references and character references fall through to
the default no-op handlers.  We embed the validator at the callback level:
a fragment is the list of parse events the tokenizer delivers. -/

/-- An HTML attribute as HTMLParser delivers it: name and optional value. -/
abbrev HtmlAttr := String × Option String

/-- Parse events delivered by HTMLParser to the validator.  `text` covers
character data, entity references and character references, all of which
the validator ignores (their handlers are not overridden). -/
inductive HtmlEvent where
  | startTag (tag : String) (attrs : List HtmlAttr) : HtmlEvent
  | endTag (tag : String) : HtmlEvent
  | startEndTag (tag : String) (attrs : List HtmlAttr) : HtmlEvent
  | comment (data : String) : HtmlEvent
  | text (data : String) : HtmlEvent

/-- `_ALLOWED_HTML_ROW_TAGS` (facilities.py line 38). -/
def allowedHtmlRowTags : List String := ["div", "pre", "span"]

/-- `_ALLOWED_HTML_ROW_CLASSES` (facilities.py lines 39-55). -/
def allowedHtmlRowClasses : List String :=
  ["log-row", "log-line-no", "log-time", "log-date", "log-clock",
   "badge-info", "badge-debug", "badge-warning", "badge-error",
   "syn-base", "syn-quote-mark", "syn-quote-content", "syn-number",
   "syn-punct", "syn-lhs"]

/-- Python's `str.split()` with no separator: split on whitespace runs,
dropping empty pieces.  Fuel-driven so that the recursion is structural. -/
def pySplitWsAux : Nat → List Char → List (List Char)
  | 0, _ => []
  | _ + 1, [] => []
  | fuel + 1, c :: rest =>
    if pyIsSpace c then pySplitWsAux fuel rest
    else
      (c :: List.takeWhile (fun d => !pyIsSpace d) rest) ::
        pySplitWsAux fuel (List.dropWhile (fun d => !pyIsSpace d) rest)

/-- `attr_value.split()`. -/
def pySplitWs (s : List Char) : List (List Char) :=
  pySplitWsAux (s.length + 1) s

/-- `str.lower()` on a single ASCII character (attribute names, tags and
themes in this code are ASCII). -/
def pyLowerChar (c : Char) : Char :=
  if 'A' ≤ c ∧ c ≤ 'Z' then Char.ofNat (c.toNat + 32) else c

/-- `str.lower()`. -/
def pyToLower (s : String) : String := ⟨s.data.map pyLowerChar⟩

/-- Shallow embedding of `StrictHtmlFragmentValidator._validate_attributes`
(facilities.py lines 306-327): for each attribute in order, reject names
starting with "on" (lowercased), reject any name other than "class",
reject a missing value, reject a value with no whitespace-separated tokens,
and reject any token outside the class allow-list. -/
def validateAttrs : List HtmlAttr → Except String Unit
  | [] => .ok ()
  | (name, value) :: rest =>
    if ((pyToLower name).startsWith "on") then
      .error "Event handler attribute is not allowed."
    else if pyToLower name ≠ "class" then
      .error "Attribute is not allowed."
    else
      match value with
      | none => .error "Empty class attribute is not allowed."
      | some v =>
        if (pySplitWs v.data).isEmpty then
          .error "Class attribute must not be empty."
        else if (pySplitWs v.data).all
            (fun t => allowedHtmlRowClasses.contains (String.mk t)) then
          validateAttrs rest
        else .error "Disallowed CSS class in HTML fragment."

/-- Validator state: the open-tag stack (head = innermost open tag, matching
Python's list-append/list-pop) and whether the root tag has been seen. -/
structure VState where
  stack : List String
  sawRoot : Bool
  deriving DecidableEq

/-- `handle_starttag` (facilities.py lines 277-285): reject disallowed tags,
require the first start tag to be `div`, validate attributes, push. -/
def handle_starttag (st : VState) (tag : String) (attrs : List HtmlAttr) :
    Except String VState :=
  if allowedHtmlRowTags.contains tag = false then
    .error "Disallowed HTML tag"
  else if st.sawRoot = false ∧ tag ≠ "div" then
    .error "HTML row must start with a <div> root."
  else
    match validateAttrs attrs with
    | .error e => .error e
    | .ok _ => .ok ⟨tag :: st.stack, true⟩

/-- `handle_endtag` (facilities.py lines 287-296): reject disallowed tags,
reject a close with an empty stack, pop and require a match. -/
def handle_endtag (st : VState) (tag : String) : Except String VState :=
  if allowedHtmlRowTags.contains tag = false then
    .error "Disallowed closing HTML tag"
  else
    match st.stack with
    | [] => .error "Unexpected closing tag in HTML fragment."
    | expected :: rest =>
      if expected ≠ tag then .error "Unbalanced HTML tags"
      else .ok ⟨rest, st.sawRoot⟩

/-- Dispatch one parse event: `handle_startendtag` (lines 298-301) and
`handle_comment` (lines 303-304) always raise; data/references are ignored. -/
def processEvent (st : VState) : HtmlEvent → Except String VState
  | .startTag tag attrs => handle_starttag st tag attrs
  | .endTag tag => handle_endtag st tag
  | .startEndTag _ _ => .error "Self-closing HTML tag is not allowed in log rows."
  | .comment _ => .error "HTML comments are not allowed in log rows."
  | .text _ => .ok st

/-- Feed all events to the validator, stopping at the first error. -/
def processEvents (st : VState) : List HtmlEvent → Except String VState
  | [] => .ok st
  | e :: es =>
    match processEvent st e with
    | .error msg => .error msg
    | .ok st' => processEvents st' es

/-- `validate_complete` (facilities.py lines 329-333). -/
def validate_complete (st : VState) : Except String Unit :=
  if st.sawRoot = false then .error "HTML row validator did not find root tag."
  else if st.stack ≠ [] then .error "HTML row has unclosed tags."
  else .ok ()

/-- Shallow embedding of `validate_rendered_row_or_raise` (facilities.py
lines 336-340) at the parse-event level: run the validator over the
fragment's events from the empty state, then check completeness. -/
def validate_rendered_row (events : List HtmlEvent) : Except String Unit :=
  match processEvents ⟨[], false⟩ events with
  | .error e => .error e
  | .ok st => validate_complete st

/-! ### The claim's independent conditions on a fragment -/

/-- Per-attribute condition of the claim: named `class` (no name starting
with "on"), with a non-empty value whose whitespace-separated tokens all
belong to the closed class allow-list. -/
def attrOk (a : HtmlAttr) : Bool :=
  !((pyToLower a.1).startsWith "on") && (pyToLower a.1 == "class") &&
    (match a.2 with
     | none => false
     | some v =>
       !(pySplitWs v.data).isEmpty &&
         (pySplitWs v.data).all (fun t => allowedHtmlRowClasses.contains (String.mk t)))

/-- Every opening and closing tag in the fragment is in {div, pre, span}. -/
def eventTagsAllowed : List HtmlEvent → Bool
  | [] => true
  | .startTag t _ :: es => allowedHtmlRowTags.contains t && eventTagsAllowed es
  | .endTag t :: es => allowedHtmlRowTags.contains t && eventTagsAllowed es
  | _ :: es => eventTagsAllowed es

/-- Every attribute of every start tag satisfies the claim's attribute
condition. -/
def attrsAllValid : List HtmlEvent → Bool
  | [] => true
  | .startTag _ attrs :: es => attrs.all attrOk && attrsAllValid es
  | _ :: es => attrsAllValid es

/-- The fragment contains no self-closing tag. -/
def noSelfClosing : List HtmlEvent → Bool
  | [] => true
  | .startEndTag _ _ :: _ => false
  | _ :: es => noSelfClosing es

/-- The fragment contains no comment. -/
def noComments : List HtmlEvent → Bool
  | [] => true
  | .comment _ :: _ => false
  | _ :: es => noComments es

/-- The first tag of the fragment (skipping text/references) is an opening
`<div>`; false when the fragment has no tag at all. -/
def firstTagIsDivStart : List HtmlEvent → Bool
  | [] => false
  | .startTag t _ :: _ => t == "div"
  | .endTag _ :: _ => false
  | .startEndTag _ _ :: _ => false
  | _ :: es => firstTagIsDivStart es

/-- The first start tag of the fragment, if any, is `<div>`. -/
def firstStartIsDiv : List HtmlEvent → Bool
  | [] => true
  | .startTag t _ :: _ => t == "div"
  | _ :: es => firstStartIsDiv es

/-- The fragment contains at least one start tag. -/
def anyStartTag : List HtmlEvent → Bool
  | [] => false
  | .startTag _ _ :: _ => true
  | _ :: es => anyStartTag es

/-- Reference stack matching of the open/close tag sequence: returns the
final stack, or `none` on a close with an empty stack or a name mismatch. -/
def balAux (stack : List String) : List HtmlEvent → Option (List String)
  | [] => some stack
  | .startTag t _ :: es => balAux (t :: stack) es
  | .endTag t :: es =>
    match stack with
    | [] => none
    | s :: rest => if s = t then balAux rest es else none
  | _ :: es => balAux stack es

/-- The claim's overall condition on a fragment: allowed tags only, first
tag an opening `<div>`, all attributes valid, no self-closing tags, no
comments, and an exactly balancing tag stack. -/
def specValid (events : List HtmlEvent) : Bool :=
  eventTagsAllowed events && firstTagIsDivStart events && attrsAllValid events &&
    noSelfClosing events && noComments events &&
    decide (balAux [] events = some [])

/-! ## HTML document writes (facilities.py, HtmlFileFacility.write)

The write path over an HTML document: `_ensure_document` (writes the
template when the file is missing or empty, otherwise a no-op), then the
rendered row is validated, then the byte-cap check, then the append.  The
document on disk is modelled as the string contents (size 0 meaning
missing or empty), the rendered row by its text (for sizing/appending)
paired with its parse events (for validation). -/

/-- Shallow embedding of `HtmlFileFacility.write` (facilities.py lines
827-857): ensure the document, validate the rendered row, raise when the
current size plus the encoded row would exceed the byte cap, else append.
Returns the outcome together with the resulting document bytes on disk. -/
def html_write (template doc row : String) (rowEvents : List HtmlEvent)
    (maxDocBytes : Nat) : Except String Unit × String :=
  let doc1 := if doc.utf8ByteSize > 0 then doc else template
  match validate_rendered_row rowEvents with
  | .error e => (.error e, doc1)
  | .ok _ =>
    if doc1.utf8ByteSize + row.utf8ByteSize > maxDocBytes then
      (.error "HTML log size limit exceeded", doc1)
    else (.ok (), doc1 ++ row)

/-! ## Syntax Colorizer (facilities.py, SyntaxColorizer)

Lines are lists of characters indexed from 0.  The wall-clock deadline
parameter only raises TimeoutError (caught by the callers for an uncolored
fallback) and never changes which spans a completed scan produces; the
scans are embedded without it.  Recursions are fuel-driven (one character
consumed per step) so concrete inputs evaluate definitionally. -/

/-- `text[i]` (all accesses in the scans are guarded by bounds checks, so
the default is never observed). -/
def charAt (t : List Char) (i : Nat) : Char := t.getD i ' '

/-- The inner cursor loop of `quoted_content_spans` (facilities.py lines
388-395): the first index ≥ cursor holding the matching quote that is
either immediately after the opener (cursor == start) or not preceded by a
backslash. -/
def findCloseAux : Nat → List Char → Char → Nat → Nat → Option Nat
  | 0, _, _, _, _ => none
  | fuel + 1, t, quote, start, cursor =>
    if cursor < t.length then
      if charAt t cursor = quote ∧ (cursor = start ∨ charAt t (cursor - 1) ≠ '\\') then
        some cursor
      else findCloseAux fuel t quote start (cursor + 1)
    else none

/-- Search for the closing quote from position `start`. -/
def findClose (t : List Char) (quote : Char) (start : Nat) : Option Nat :=
  findCloseAux (t.length + 1) t quote start start

/-- The outer scan of `quoted_content_spans` (facilities.py lines 374-398):
at a quote character, find the matching non-escaped close; on success emit
the content span (start, cursor) and resume after the close, otherwise
(unterminated) move one character forward. -/
def quotedSpansAux : Nat → List Char → Nat → List (Nat × Nat)
  | 0, _, _ => []
  | fuel + 1, t, idx =>
    if idx < t.length then
      if charAt t idx = '"' ∨ charAt t idx = '\'' then
        match findClose t (charAt t idx) (idx + 1) with
        | some cursor => (idx + 1, cursor) :: quotedSpansAux fuel t (cursor + 1)
        | none => quotedSpansAux fuel t (idx + 1)
      else quotedSpansAux fuel t (idx + 1)
    else []

/-- `SyntaxColorizer.quoted_content_spans`. -/
def quoted_content_spans (t : List Char) : List (Nat × Nat) :=
  quotedSpansAux (t.length + 1) t 0

/-- `_PUNCTUATION_CHARS` (facilities.py line 30). -/
def pyPunctuation : List Char := ".,+-=<>:;[]{}".data

/-- `SyntaxColorizer.index_in_spans` (facilities.py lines 453-458). -/
def index_in_spans (index : Nat) (spans : List (Nat × Nat)) : Bool :=
  spans.any (fun p => decide (p.1 ≤ index ∧ index < p.2))

/-- Shallow embedding of `SyntaxColorizer.token_class` (facilities.py lines
460-479): quote-mark, then quote-content, then lhs, then digit, then
punctuation, else base. -/
def token_class (index : Nat) (ch : Char) (quoteSpans : List (Nat × Nat))
    (quoteMarks : List Nat) (lhsSpans : List (Nat × Nat)) : String :=
  if quoteMarks.contains index then "quote-mark"
  else if index_in_spans index quoteSpans then "quote-content"
  else if index_in_spans index lhsSpans then "lhs"
  else if ch.isDigit then "number"
  else if pyPunctuation.contains ch then "punct"
  else "base"

/-! ## Write throttle (router.py, LoggerRouter._should_drop_write_due_to_throttle
and get_throttle_stats)

The monotonic clock is modelled as integer time; the throttle state mirrors
the router's five throttle fields, with the per-handle drop dictionary as a
total function defaulting to 0. -/

/-- The router's throttle state (`_throttle_window_started_at`,
`_writes_in_current_window`, `_dropped_in_current_window`,
`_throttle_dropped_total`, `_throttle_dropped_by_handle`). -/
structure ThrottleState where
  windowStartedAt : Int
  writesInCurrentWindow : Nat
  droppedInCurrentWindow : Nat
  droppedTotal : Nat
  droppedByHandle : String → Nat

/-- The freshly initialized throttle state. -/
def initialThrottle : ThrottleState :=
  ⟨0, 0, 0, 0, fun _ => 0⟩

/-- Shallow embedding of `_should_drop_write_due_to_throttle` (router.py
lines 324-347): start the window on first use, reset it when the elapsed
time reaches the window length, then either drop (counting per-handle and
in aggregate — note the single `_writes_in_current_window` counter shared
by all handles) or admit.  Returns (dropped?, new state); the diagnostic
console line emitted on a reset does not affect the state. -/
def should_drop_write_due_to_throttle (maxWrites : Nat) (windowSeconds : Int)
    (st : ThrottleState) (handle : String) (now : Int) : Bool × ThrottleState :=
  let st1 := if st.windowStartedAt ≤ 0 then { st with windowStartedAt := now } else st
  let st2 :=
    if now - st1.windowStartedAt ≥ windowSeconds then
      { st1 with windowStartedAt := now, writesInCurrentWindow := 0,
                 droppedInCurrentWindow := 0 }
    else st1
  if st2.writesInCurrentWindow ≥ maxWrites then
    (true,
      { st2 with
          droppedInCurrentWindow := st2.droppedInCurrentWindow + 1,
          droppedTotal := st2.droppedTotal + 1,
          droppedByHandle := fun h =>
            if h = handle then st2.droppedByHandle handle + 1
            else st2.droppedByHandle h })
  else (false, { st2 with writesInCurrentWindow := st2.writesInCurrentWindow + 1 })

/-- Run a sequence of (handle, time) write attempts through the throttle,
recording for each whether it was admitted (the router calls
`facility.write` exactly for the admitted ones). -/
def processWrites (maxWrites : Nat) (windowSeconds : Int) (st : ThrottleState) :
    List (String × Int) → List (String × Bool) × ThrottleState
  | [] => ([], st)
  | (h, t) :: rest =>
    let r := should_drop_write_due_to_throttle maxWrites windowSeconds st h t
    let rec1 := processWrites maxWrites windowSeconds r.2 rest
    ((h, !r.1) :: rec1.1, rec1.2)

/-- `get_throttle_stats` (router.py lines 349-353). -/
def get_throttle_stats (st : ThrottleState) : Nat × (String → Nat) :=
  (st.droppedTotal, st.droppedByHandle)

/-- Number of admitted writes in a decision list. -/
def countAdmitted (rs : List (String × Bool)) : Nat :=
  rs.countP (fun p => p.2)

/-- Number of admitted writes to one handle in a decision list. -/
def countAdmittedTo (handle : String) (rs : List (String × Bool)) : Nat :=
  rs.countP (fun p => p.1 == handle && p.2)

/-! ## Facility registration (router.py, LoggerRouter.add_log_file and
add_html_log_file)

The router's handle→facility map is modelled as a total function to
optional facility records.  Filesystem work inside FileFacility.create /
HtmlFileFacility.create is abstracted into an outcome: success, an
unsafe-target rejection (re-raised), or an unexpected OS failure (recovered
into a diagnostic plus a False return). -/

/-- A registered facility, as far as the registration claims observe it. -/
inductive FacilityModel where
  | console : FacilityModel
  | file (handle path : String) (rotationsToKeep : Nat) : FacilityModel
  | html (handle path title theme : String) : FacilityModel
  deriving DecidableEq

/-- The router's facility map. -/
structure RouterState where
  facilities : String → Option FacilityModel

/-- Outcome of the facility constructor's filesystem work. -/
inductive CreateOutcome where
  | success : CreateOutcome
  | unsafeTarget : CreateOutcome
  | osFailure : CreateOutcome
  deriving DecidableEq

/-- `FileFacility.validate_handle` (facilities.py lines 609-614): at most 64
characters and a full match of `^[A-Za-z0-9_]+$`. -/
def validate_handle (h : String) : Except String Unit :=
  if h.length > 64 then
    .error "log_handle is too long (max 64 chars)."
  else if !(h.length > 0 && h.data.all (fun c => c.isAlphanum || c = '_')) then
    .error "log_handle must be alphanumeric with optional underscores."
  else .ok ()

/-- Shallow embedding of `LoggerRouter.add_log_file` (router.py lines
172-208): reject the reserved "console" handle and negative retention,
validate the handle, re-raise unsafe-target errors, recover other
construction failures into (False, unchanged map), and otherwise store the
new facility under the handle — overwriting any facility already
registered there — and return True. -/
def add_log_file (rs : RouterState) (logHandle path : String)
    (rotationsToKeep : Int) (outcome : CreateOutcome) :
    Except String (Bool × RouterState) :=
  if logHandle = "console" then .error "log_handle 'console' is reserved."
  else if rotationsToKeep < 0 then .error "rotations_to_keep must be >= 0."
  else
    match validate_handle logHandle with
    | .error e => .error e
    | .ok _ =>
      match outcome with
      | .unsafeTarget => .error "unsafe log target"
      | .osFailure => .ok (false, rs)
      | .success =>
        .ok (true,
          ⟨fun h =>
            if h = logHandle then
              some (.file logHandle path rotationsToKeep.toNat)
            else rs.facilities h⟩)

/-- `str(theme).strip().lower()` of `_validate_html_theme`. -/
def pyStripLower (s : String) : String :=
  pyToLower ⟨pyStrip s.data⟩

/-- Shallow embedding of `LoggerRouter.add_html_log_file` (router.py lines
210-266): additionally validates the theme, the refresh interval and the
title length before constructing; the stored facility likewise silently
replaces any previous facility under the handle, returning True. -/
def add_html_log_file (rs : RouterState) (logHandle path title theme : String)
    (refreshSeconds rotationsToKeep : Int) (maxTitleLength : Nat)
    (outcome : CreateOutcome) : Except String (Bool × RouterState) :=
  if logHandle = "console" then .error "log_handle 'console' is reserved."
  else if rotationsToKeep < 0 then .error "rotations_to_keep must be >= 0."
  else if ¬(pyStripLower theme = "dark" ∨ pyStripLower theme = "light") then
    .error "Unsupported HTML theme"
  else if refreshSeconds ≤ 0 then .error "html_auto_refresh_seconds must be > 0."
  else if title.length > maxTitleLength then .error "title is too long"
  else
    match validate_handle logHandle with
    | .error e => .error e
    | .ok _ =>
      match outcome with
      | .unsafeTarget => .error "unsafe log target"
      | .osFailure => .ok (false, rs)
      | .success =>
        .ok (true,
          ⟨fun h =>
            if h = logHandle then
              some (.html logHandle path title (pyStripLower theme))
            else rs.facilities h⟩)

/-- A router map with "console" and one plain-text facility "app". -/
def exampleRouter : RouterState :=
  ⟨fun h =>
    if h = "app" then some (.file "app" "p" 0)
    else if h = "console" then some .console
    else none⟩

end Pylogrouter

/-! # Theorems -/

namespace Pylogrouter

/-- C3: `assert_safe_log_target` raises if and only if some ancestor
directory is a symbolic link, or the target exists and is a symlink or
anything other than a regular file, or inspecting the target fails for a
reason other than "not found"; a missing target (with safe ancestors)
returns without error. -/
theorem c3_assert_safe_log_target_iff (t : TargetInfo) :
    isErr (assert_safe_log_target t) = true ↔
      (t.ancestorIsSymlink.any id = true ∨
        t.lstatResult = .accessError ∨
        (∃ k, t.lstatResult = .found k ∧ k ≠ .regular)) := by
  unfold assert_safe_log_target
  by_cases h : t.ancestorIsSymlink.any id = true
  · simp [h, isErr]
  · simp only [h, if_false, Bool.false_eq_true, false_or]
    cases hl : t.lstatResult with
    | notFound => simp [isErr]
    | accessError => simp [isErr]
    | found k =>
      cases k <;> simp [isErr]

/-- The shift loop, started at slot k with slot k+1 absent, moves every
slot j ∈ [1, k] up to slot j+1, clears slot 1, and leaves slot 0 and all
slots above k+1 untouched. -/
theorem shift_files_apply (k : Nat) (g : FS) (hk : g (k + 1) = none) :
    (∀ j, 1 ≤ j → j ≤ k → shift_files g k (j + 1) = g j) ∧
      shift_files g k 0 = g 0 ∧
      (1 ≤ k → shift_files g k 1 = none) ∧
      (∀ j, k + 1 < j → shift_files g k j = g j) := by
  induction k generalizing g with
  | zero =>
    refine ⟨fun j h1 h2 => absurd (h1.trans h2) (by omega), rfl, by omega, fun j _ => rfl⟩
  | succ k ih =>
    have hstep : shift_files g (k + 1) = shift_files (moveIfExists g (k + 1) (k + 2)) k := rfl
    set g' := moveIfExists g (k + 1) (k + 2) with hg'
    have hg'k1 : g' (k + 1) = none := by
      rw [hg']
      unfold moveIfExists
      cases hv : g (k + 1) with
      | some v => simp
      | none => exact hv
    have hg'k2 : g' (k + 2) = g (k + 1) := by
      rw [hg']
      unfold moveIfExists
      cases hv : g (k + 1) with
      | some v => simp [show k + 2 ≠ k + 1 by omega]
      | none => exact hk
    have hg'lo : ∀ j, j < k + 1 → g' j = g j := by
      intro j hj
      rw [hg']
      unfold moveIfExists
      cases hv : g (k + 1) with
      | some v => simp [show j ≠ k + 1 by omega, show j ≠ k + 2 by omega]
      | none => rfl
    have hg'hi : ∀ j, k + 2 < j → g' j = g j := by
      intro j hj
      rw [hg']
      unfold moveIfExists
      cases hv : g (k + 1) with
      | some v => simp [show j ≠ k + 1 by omega, show j ≠ k + 2 by omega]
      | none => rfl
    obtain ⟨ih1, ih2, ih3, ih4⟩ := ih g' hg'k1
    refine ⟨?_, ?_, ?_, ?_⟩
    · intro j h1 h2
      rw [hstep]
      rcases Nat.lt_or_ge j (k + 1) with hj | hj
      · rw [ih1 j h1 (by omega), hg'lo j hj]
      · have hjeq : j = k + 1 := by omega
        subst hjeq
        rw [ih4 (k + 2) (by omega), hg'k2]
    · rw [hstep, ih2, hg'lo 0 (by omega)]
    · intro _
      rw [hstep]
      rcases Nat.eq_zero_or_pos k with hk0 | hk0
      · subst hk0
        have : shift_files g' 0 = g' := rfl
        rw [this]
        rw [hg']
        unfold moveIfExists
        cases hv : g 1 with
        | some v => simp
        | none => exact hv
      · exact ih3 hk0
    · intro j hj
      rw [hstep, ih4 j (by omega), hg'hi j hj]

/-- C6: rotation with keep = 0 truncates F in place (yielding an existing
empty file, all other slots untouched); rotation with keep = N > 0 yields an
empty F, slot i holding the old contents of slot i-1 for 1 ≤ i ≤ N, and
slots above N untouched; and on the concrete chain F = "newest",
F.1 = "older", rotating with keep = 2 yields F = "", F.1 = "newest",
F.2 = "older". -/
theorem c6_rotate_files (fs : FS) (N : Nat) (hN : 1 ≤ N) :
    (rotate_files fs 0 0 = some "" ∧ ∀ j, 1 ≤ j → rotate_files fs 0 j = fs j) ∧
      (rotate_files fs N 0 = some "" ∧
        (∀ i, 1 ≤ i → i ≤ N → rotate_files fs N i = fs (i - 1)) ∧
        (∀ i, N < i → rotate_files fs N i = fs i)) ∧
      (rotate_files exampleChain 2 0 = some "" ∧
        rotate_files exampleChain 2 1 = some "newest" ∧
        rotate_files exampleChain 2 2 = some "older") := by
  have hzero : (rotate_files fs 0 0 = some "" ∧
      ∀ j, 1 ≤ j → rotate_files fs 0 j = fs j) := by
    constructor
    · simp [rotate_files, fsSet]
    · intro j hj
      simp [rotate_files, fsSet, show j ≠ 0 by omega]
  refine ⟨hzero, ?_, by decide⟩
  have hNpos : N ≠ 0 := by omega
  unfold rotate_files
  simp only [hNpos, if_false]
  set fs1 := if (fs N).isSome then fsSet fs N none else fs with hfs1
  have hfs1N : fs1 N = none := by
    rw [hfs1]
    cases hv : fs N with
    | some v => simp [fsSet]
    | none => simp [hv]
  have hfs1lo : ∀ j, j ≠ N → fs1 j = fs j := by
    intro j hj
    rw [hfs1]
    cases hv : fs N with
    | some v => simp [fsSet, hj, hv]
    | none => simp [hv]
  have hpre : fs1 (N - 1 + 1) = none := by
    rw [show N - 1 + 1 = N by omega]
    exact hfs1N
  obtain ⟨s1, s2, s3, s4⟩ := shift_files_apply (N - 1) fs1 hpre
  set fs2 := shift_files fs1 (N - 1) with hfs2
  have hfs2_0 : fs2 0 = fs 0 := by
    rw [s2]
    exact hfs1lo 0 (by omega)
  have hfs2_1 : fs2 1 = none := by
    rcases Nat.lt_or_ge 1 N with h1 | h1
    · exact s3 (by omega)
    · have hN1 : N = 1 := by omega
      subst hN1
      have heq : fs2 1 = fs1 1 := by rw [hfs2]; rfl
      rw [heq]
      exact hfs1N
  set fs3 := moveIfExists fs2 0 1 with hfs3
  have hfs3_1 : fs3 1 = fs 0 := by
    rw [hfs3]
    unfold moveIfExists
    cases hv : fs2 0 with
    | some v =>
      have hv' : fs 0 = some v := by rw [← hfs2_0, hv]
      simp [hv']
    | none =>
      show fs2 1 = fs 0
      rw [hfs2_1, ← hfs2_0, hv]
  have hfs3hi : ∀ j, 2 ≤ j → fs3 j = fs2 j := by
    intro j hj
    rw [hfs3]
    unfold moveIfExists
    cases hv : fs2 0 with
    | some v => simp [show j ≠ 0 by omega, show j ≠ 1 by omega]
    | none => rfl
  refine ⟨by simp [fsSet], ?_, ?_⟩
  · intro i h1 h2
    rcases Nat.lt_or_ge 1 i with hi | hi
    · have : fsSet fs3 0 (some "") i = fs3 i := by
        simp [fsSet, show i ≠ 0 by omega]
      rw [this, hfs3hi i (by omega)]
      have : fs2 i = fs1 (i - 1) := by
        rw [hfs2]
        have := s1 (i - 1) (by omega) (by omega)
        rw [show i - 1 + 1 = i by omega] at this
        exact this
      rw [this, hfs1lo (i - 1) (by omega)]
    · have hi1 : i = 1 := by omega
      subst hi1
      have : fsSet fs3 0 (some "") 1 = fs3 1 := by simp [fsSet]
      rw [this, hfs3_1]
  · intro i hi
    have : fsSet fs3 0 (some "") i = fs3 i := by
      simp [fsSet, show i ≠ 0 by omega]
    rw [this, hfs3hi i (by omega)]
    have : fs2 i = fs1 i := by
      rw [hfs2]
      exact s4 i (by omega)
    rw [this, hfs1lo i (by omega)]

/-- Witness for C6: the general rotation theorem applied to the concrete
example chain with keep = 2. -/
theorem c6_rotate_files_witness :
    rotate_files exampleChain 2 0 = some "" ∧
      rotate_files exampleChain 2 1 = some "newest" ∧
      rotate_files exampleChain 2 2 = some "older" :=
  (c6_rotate_files exampleChain 2 (by decide)).2.2

theorem digitChar10_ne_nl (d : Nat) : digitChar10 d ≠ '\n' := by
  unfold digitChar10
  split <;> decide

theorem natCharsAux_ne_nl (fuel : Nat) :
    ∀ n, ∀ c ∈ natCharsAux fuel n, c ≠ '\n' := by
  induction fuel with
  | zero => intro n c hc; simp [natCharsAux] at hc
  | succ fuel ih =>
    intro n c hc
    unfold natCharsAux at hc
    split at hc
    · simp only [List.mem_singleton] at hc
      subst hc
      exact digitChar10_ne_nl _
    · rw [List.mem_append] at hc
      rcases hc with hc | hc
      · exact ih (n / 10) c hc
      · simp only [List.mem_singleton] at hc
        subst hc
        exact digitChar10_ne_nl _

theorem natChars_ne_nl (n : Nat) : ∀ c ∈ natChars n, c ≠ '\n' :=
  natCharsAux_ne_nl (n + 1) n

theorem nl_not_mem_clipMarker (n : Nat) : '\n' ∉ clipMarker n := by
  unfold clipMarker
  intro h
  rw [List.mem_append, List.mem_append] at h
  rcases h with (h | h) | h
  · revert h; decide
  · exact natChars_ne_nl n _ h rfl
  · revert h; decide

theorem nl_not_mem_droppedMarker (d : Nat) : '\n' ∉ droppedMarker d := by
  unfold droppedMarker
  intro h
  rw [List.mem_append, List.mem_append] at h
  rcases h with (h | h) | h
  · revert h; decide
  · exact natChars_ne_nl d _ h rfl
  · revert h; decide

theorem nl_not_mem_lineClipMarker (n : Nat) : '\n' ∉ lineClipMarker n := by
  unfold lineClipMarker
  intro h
  rw [List.mem_append, List.mem_append] at h
  rcases h with (h | h) | h
  · revert h; decide
  · exact natChars_ne_nl n _ h rfl
  · revert h; decide

theorem splitNl_cons_ne (c : Char) (rest : List Char) (hc : c ≠ '\n') :
    splitNl (c :: rest) =
      (c :: (splitNl rest).headI) :: (splitNl rest).tail := by
  show (if c = '\n' then [] :: splitNl rest
      else (c :: (splitNl rest).headI) :: (splitNl rest).tail) =
    (c :: (splitNl rest).headI) :: (splitNl rest).tail
  rw [if_neg hc]

theorem splitNl_ne_nil (s : List Char) : splitNl s ≠ [] := by
  induction s with
  | nil => simp [splitNl]
  | cons c rest ih =>
    by_cases h : c = '\n'
    · simp [splitNl, h]
    · rw [splitNl_cons_ne c rest h]
      simp

theorem splitNl_pieces_no_nl (s : List Char) :
    ∀ l ∈ splitNl s, '\n' ∉ l := by
  induction s with
  | nil =>
    intro l hl
    simp [splitNl] at hl
    subst hl
    simp
  | cons c rest ih =>
    intro l hl
    by_cases h : c = '\n'
    · simp only [splitNl, h, if_true] at hl
      rcases List.mem_cons.mp hl with h1 | h1
      · subst h1; simp
      · exact ih l h1
    · rw [splitNl_cons_ne c rest h] at hl
      cases hs : splitNl rest with
      | nil => exact absurd hs (splitNl_ne_nil rest)
      | cons p ps =>
        rw [hs] at hl
        simp only [List.headI, List.tail] at hl
        rcases List.mem_cons.mp hl with h1 | h1
        · subst h1
          intro hmem
          rcases List.mem_cons.mp hmem with h2 | h2
          · exact h h2.symm
          · exact ih p (hs ▸ List.mem_cons_self p ps) h2
        · exact ih l (hs ▸ List.mem_cons_of_mem p h1)

theorem splitNl_no_nl (l : List Char) (hl : '\n' ∉ l) : splitNl l = [l] := by
  induction l with
  | nil => rfl
  | cons c rest ih =>
    have hc : c ≠ '\n' := fun h => hl (h ▸ List.mem_cons_self c rest)
    have hrest : '\n' ∉ rest := fun h => hl (List.mem_cons_of_mem c h)
    rw [splitNl_cons_ne c rest hc, ih hrest]
    rfl

theorem splitNl_append_nl (l r : List Char) (hl : '\n' ∉ l) :
    splitNl (l ++ '\n' :: r) = l :: splitNl r := by
  induction l with
  | nil => simp [splitNl]
  | cons c rest ih =>
    have hc : c ≠ '\n' := fun h => hl (h ▸ List.mem_cons_self c rest)
    have hrest : '\n' ∉ rest := fun h => hl (List.mem_cons_of_mem c h)
    show splitNl (c :: (rest ++ '\n' :: r)) = (c :: rest) :: splitNl r
    rw [splitNl_cons_ne c _ hc, ih hrest]
    rfl

theorem splitNl_joinNl (ls : List (List Char)) (hne : ls ≠ [])
    (hnl : ∀ l ∈ ls, '\n' ∉ l) : splitNl (joinNl ls) = ls := by
  induction ls with
  | nil => exact absurd rfl hne
  | cons l ls ih =>
    cases ls with
    | nil =>
      show splitNl (joinNl [l]) = [l]
      have : joinNl [l] = l := rfl
      rw [this]
      exact splitNl_no_nl l (hnl l (List.mem_cons_self l []))
    | cons l' ls' =>
      show splitNl (l ++ '\n' :: joinNl (l' :: ls')) = l :: l' :: ls'
      rw [splitNl_append_nl l _ (hnl l (List.mem_cons_self l _))]
      rw [ih (by simp) (fun p hp => hnl p (List.mem_cons_of_mem l hp))]

theorem clipLine_no_nl (m : Nat) (line : List Char) (h : '\n' ∉ line) :
    '\n' ∉ clipLine m line := by
  unfold clipLine
  split
  · intro hmem
    rw [List.mem_append] at hmem
    rcases hmem with hmem | hmem
    · exact h (List.mem_of_mem_take hmem)
    · exact nl_not_mem_lineClipMarker m hmem
  · exact h

/-- C4 counterexample: with `max_message_lines = 2` and the three-line
message "a\nb\nc", the prepared message has 3 lines — the prepared line
count exceeds `max_message_lines`, refuting "line count never exceeds
max_message_lines". -/
theorem c4_counterexample :
    lineCount (prepare_message 100 2 100 ("a\nb\nc".data)) = 3 ∧ ¬(3 ≤ 2) := by
  constructor
  · rfl
  · decide

/-- C4 (amended): the prepared message's line count never exceeds
`max_message_lines + 1`; it equals the line count of the normalized,
total-length-truncated input when that count is at most the cap, and is
cap + 1 (the extra dropped-count marker line) otherwise. -/
theorem c4_prepare_message_line_count (maxLen maxLines maxLineLen : Nat)
    (message : List Char) :
    lineCount (prepare_message maxLen maxLines maxLineLen message) =
      (if lineCount (truncateTotal maxLen (pyNormalizeNewlines message)) ≤ maxLines
        then lineCount (truncateTotal maxLen (pyNormalizeNewlines message))
        else maxLines + 1) ∧
      lineCount (prepare_message maxLen maxLines maxLineLen message) ≤ maxLines + 1 := by
  have key : ∀ normalized : List Char,
      lineCount (prepare_message maxLen maxLines maxLineLen message) =
        (splitNl (truncateTotal maxLen (pyNormalizeNewlines message))).length →
      True := fun _ _ => trivial
  clear key
  set normalized := truncateTotal maxLen (pyNormalizeNewlines message) with hnorm
  set lines := splitNl normalized with hlines
  have hlines_ne : lines ≠ [] := splitNl_ne_nil normalized
  have hlines_nl : ∀ l ∈ lines, '\n' ∉ l := splitNl_pieces_no_nl normalized
  have hunfold : prepare_message maxLen maxLines maxLineLen message =
      joinNl ((if lines.length > maxLines then
        lines.take maxLines ++ [droppedMarker (lines.length - maxLines)]
      else lines).map (clipLine maxLineLen)) := rfl
  by_cases hcap : lines.length > maxLines
  · have hfinal : (lines.take maxLines ++
        [droppedMarker (lines.length - maxLines)]).length = maxLines + 1 := by
      simp [List.length_take]
      omega
    have hnl2 : ∀ l ∈ lines.take maxLines ++ [droppedMarker (lines.length - maxLines)],
        '\n' ∉ l := by
      intro l hl
      rw [List.mem_append] at hl
      rcases hl with hl | hl
      · exact hlines_nl l (List.mem_of_mem_take hl)
      · simp only [List.mem_singleton] at hl
        subst hl
        exact nl_not_mem_droppedMarker _
    have hcount : lineCount (prepare_message maxLen maxLines maxLineLen message) =
        maxLines + 1 := by
      rw [lineCount, hunfold]
      simp only [hcap, if_true]
      rw [splitNl_joinNl _ (by simp) ?hnl]
      case hnl =>
        intro l hl
        rw [List.mem_map] at hl
        obtain ⟨p, hp, hpl⟩ := hl
        subst hpl
        exact clipLine_no_nl maxLineLen p (hnl2 p hp)
      rw [List.length_map]
      exact hfinal
    constructor
    · rw [hcount]
      have : ¬ (lineCount normalized ≤ maxLines) := by
        rw [lineCount, ← hlines]
        omega
      simp [this]
    · rw [hcount]
  · have hcount : lineCount (prepare_message maxLen maxLines maxLineLen message) =
        lines.length := by
      rw [lineCount, hunfold]
      simp only [hcap, if_false]
      rw [splitNl_joinNl _ ?hne2 ?hnl]
      case hne2 =>
        intro h
        exact hlines_ne (List.map_eq_nil_iff.mp h)
      case hnl =>
        intro l hl
        rw [List.mem_map] at hl
        obtain ⟨p, hp, hpl⟩ := hl
        subst hpl
        exact clipLine_no_nl maxLineLen p (hlines_nl p hp)
      rw [List.length_map]
    constructor
    · rw [hcount]
      have : lineCount normalized ≤ maxLines := by
        rw [lineCount, ← hlines]
        omega
      simp only [lineCount, ← hlines] at this ⊢
      simp [this]
    · rw [hcount]
      omega

/-- Rotation always leaves the live file F existing and empty. -/
theorem rotate_files_zero (fs : FS) (keep : Nat) :
    rotate_files fs keep 0 = some "" := by
  unfold rotate_files
  split
  · simp [fsSet]
  · simp [fsSet]

theorem nl_not_mem_collapseNlRunsAux (fuel : Nat) :
    ∀ s, '\n' ∉ collapseNlRunsAux fuel s := by
  induction fuel with
  | zero => intro s; simp [collapseNlRunsAux]
  | succ fuel ih =>
    intro s
    cases s with
    | nil => simp [collapseNlRunsAux]
    | cons c rest =>
      by_cases hsp : pyIsSpace c = true
      · simp only [collapseNlRunsAux, hsp, if_true]
        intro hmem
        rw [List.mem_append] at hmem
        rcases hmem with h | h
        · split at h
          · simp only [List.mem_singleton] at h
            exact absurd h (by decide)
          · next hrun => exact hrun h
        · exact ih _ h
      · simp only [collapseNlRunsAux, hsp, if_false]
        intro hmem
        rcases List.mem_cons.mp hmem with h | h
        · rw [← h] at hsp
          exact hsp (by decide)
        · exact ih rest h

theorem nl_not_mem_pyStrip (s : List Char) (h : '\n' ∉ s) :
    '\n' ∉ pyStrip s := by
  intro hm
  unfold pyStrip at hm
  rw [List.mem_reverse] at hm
  have hm2 := (List.dropWhile_sublist (l := (s.dropWhile pyIsSpace).reverse)
    (p := pyIsSpace)).subset hm
  rw [List.mem_reverse] at hm2
  exact h ((List.dropWhile_sublist (l := s) (p := pyIsSpace)).subset hm2)

/-- C8 counterexample: for the record message "x " (trailing space, no
newline at all) the code appends "... x\n" — `flatten_message` also strips
the trailing space, although no whitespace run contains a newline, so the
appended line is not header ++ claimed-flattening ++ newline. -/
theorem c8_counterexample :
    file_write emptyChain 0 1000 "2024-01-01 00:00:00" "INFO" "x " 0 =
        some "[2024-01-01 00:00:00] [INFO] x\n" ∧
      flattenAsClaimed "x " = "x " ∧
      flatten_message "x " = "x" ∧
      ("[2024-01-01 00:00:00] [INFO] x\n" : String) ≠
        "[2024-01-01 00:00:00] [INFO] x \n" := by
  refine ⟨?_, ?_, ?_, ?_⟩ <;> decide

/-- C8 (amended): every `FileFacility.write` appends exactly
'[timestamp] [NATURE] ' ++ flattened message ++ newline, where flattening
collapses every whitespace run containing a newline into one space AND
strips leading/trailing whitespace; rotation is performed before the append
iff appending would exceed the configured max file size (and the flattened
message contains no newline). -/
theorem c8_file_write_characterization (fs : FS) (keep maxSize : Nat)
    (ts nature msg : String) :
    file_write fs keep maxSize ts nature msg =
      (if chainFileSize fs + (fileLine ts nature msg).utf8ByteSize > maxSize
        then fsSet (rotate_files fs keep) 0 (some (fileLine ts nature msg))
        else fsSet fs 0 (some (chainFileContent fs ++ fileLine ts nature msg))) ∧
      '\n' ∉ (flatten_message msg).data ∧
      flatten_message msg = ⟨pyStrip (flattenAsClaimed msg).data⟩ := by
  refine ⟨?_, ?_, rfl⟩
  · simp only [file_write]
    split
    · have h0 : chainFileContent (rotate_files fs keep) = "" := by
        simp [chainFileContent, rotate_files_zero]
      rw [h0]
      rfl
    · rfl
  · exact nl_not_mem_pyStrip _ (nl_not_mem_collapseNlRunsAux _ _)

theorem isErr_false_iff {ε : Type} (x : Except ε Unit) :
    isErr x = false ↔ x = .ok () := by
  cases x with
  | error e => simp [isErr]
  | ok u => cases u; simp [isErr]

theorem validateAttrs_ok_iff (attrs : List HtmlAttr) :
    validateAttrs attrs = .ok () ↔ attrs.all attrOk = true := by
  induction attrs with
  | nil => simp [validateAttrs]
  | cons a rest ih =>
    obtain ⟨name, value⟩ := a
    unfold validateAttrs
    by_cases h1 : (pyToLower name).startsWith "on" = true
    · simp [h1, attrOk]
    · rw [if_neg h1]
      by_cases h2 : pyToLower name = "class"
      · rw [if_neg (not_not_intro h2)]
        cases value with
        | none => simp [attrOk, h1, h2]
        | some v =>
          show (if (pySplitWs v.data).isEmpty = true then
              (Except.error "Class attribute must not be empty." : Except String Unit)
            else if ((pySplitWs v.data).all
                fun t => allowedHtmlRowClasses.contains (String.mk t)) = true then
              validateAttrs rest
            else Except.error "Disallowed CSS class in HTML fragment.") =
              Except.ok () ↔ ((name, some v) :: rest).all attrOk = true
          have hcs : ("class".startsWith "on") = false := by
            rw [← h2]
            exact Bool.eq_false_iff.mpr h1
          by_cases h3 : pySplitWs v.data = []
          · simp [attrOk, h1, h2, h3]
          · rw [if_neg (by simpa [List.isEmpty_iff] using h3)]
            by_cases h4 : ∀ t ∈ pySplitWs v.data,
                String.mk t ∈ allowedHtmlRowClasses
            · rw [if_pos (by simpa [List.all_eq_true] using h4), ih]
              simp [attrOk, h1, h2, h3, h4, hcs]
              exact fun _ => h4
            · rw [if_neg (by simpa [List.all_eq_true] using h4)]
              simp [attrOk, h1, h2, h3, h4, hcs]
      · rw [if_pos h2]
        simp [attrOk, h2]

theorem handle_starttag_ok_iff (st : VState) (tag : String)
    (attrs : List HtmlAttr) (st' : VState) :
    handle_starttag st tag attrs = .ok st' ↔
      (tag ∈ allowedHtmlRowTags ∧
        (st.sawRoot = true ∨ tag = "div") ∧
        validateAttrs attrs = .ok () ∧ st' = ⟨tag :: st.stack, true⟩) := by
  unfold handle_starttag
  by_cases h1 : tag ∈ allowedHtmlRowTags
  · rw [if_neg (by simpa using h1)]
    by_cases h2 : st.sawRoot = false ∧ tag ≠ "div"
    · rw [if_pos h2]
      simp [h2.1, h2.2]
    · rw [if_neg h2]
      have h2' : st.sawRoot = true ∨ tag = "div" := by
        by_cases hs : st.sawRoot = true
        · exact Or.inl hs
        · right
          by_contra htag
          exact h2 ⟨by simpa using hs, htag⟩
      cases hva : validateAttrs attrs with
      | error e => simp [hva]
      | ok u =>
        cases u
        simp only [Except.ok.injEq]
        constructor
        · intro h
          exact ⟨h1, h2', trivial, h.symm⟩
        · rintro ⟨-, -, -, h⟩
          exact h.symm
  · have hc : allowedHtmlRowTags.contains tag = false := by simpa using h1
    simp [hc, h1]

theorem handle_endtag_ok_iff (st : VState) (tag : String) (st' : VState) :
    handle_endtag st tag = .ok st' ↔
      (tag ∈ allowedHtmlRowTags ∧
        ∃ rest, st.stack = tag :: rest ∧ st' = ⟨rest, st.sawRoot⟩) := by
  unfold handle_endtag
  by_cases h1 : tag ∈ allowedHtmlRowTags
  · rw [if_neg (by simpa using h1)]
    cases hs : st.stack with
    | nil => simp [hs]
    | cons expected rest =>
      show (if expected ≠ tag then (Except.error "Unbalanced HTML tags" : Except String VState)
          else Except.ok ⟨rest, st.sawRoot⟩) = Except.ok st' ↔
        (tag ∈ allowedHtmlRowTags ∧
          ∃ r, expected :: rest = tag :: r ∧ st' = ⟨r, st.sawRoot⟩)
      by_cases h2 : expected = tag
      · rw [if_neg (not_not_intro h2)]
        constructor
        · intro h
          exact ⟨h1, rest, by rw [h2], (Except.ok.inj h).symm⟩
        · rintro ⟨-, r, hr, hst⟩
          injection hr with he hr2
          subst hr2
          exact congrArg Except.ok hst.symm
      · rw [if_pos h2]
        constructor
        · intro h
          simp at h
        · rintro ⟨-, r, hr, -⟩
          injection hr with he
          exact absurd he h2
  · have hc : allowedHtmlRowTags.contains tag = false := by simpa using h1
    simp [hc, h1]

theorem validate_complete_ok_iff (st : VState) :
    validate_complete st = .ok () ↔ (st.sawRoot = true ∧ st.stack = []) := by
  unfold validate_complete
  by_cases h1 : st.sawRoot = false
  · simp [h1]
  · have h1' : st.sawRoot = true := by
      cases h : st.sawRoot
      · exact absurd h h1
      · rfl
    by_cases h2 : st.stack ≠ []
    · simp [h1, h2, h1']
    · push_neg at h2
      simp [h1, h2, h1']

theorem processEvents_cons (st : VState) (e : HtmlEvent) (es : List HtmlEvent) :
    processEvents st (e :: es) =
      match processEvent st e with
      | .error msg => .error msg
      | .ok st' => processEvents st' es := rfl

/-- A successful validator run implies the four per-event scan conditions. -/
theorem processEvents_ok_scan (events : List HtmlEvent) :
    ∀ st st', processEvents st events = .ok st' →
      eventTagsAllowed events = true ∧ attrsAllValid events = true ∧
        noSelfClosing events = true ∧ noComments events = true := by
  induction events with
  | nil => intro st st' _; exact ⟨rfl, rfl, rfl, rfl⟩
  | cons e es ih =>
    intro st st' h
    rw [processEvents_cons] at h
    cases hh : processEvent st e with
    | error msg => rw [hh] at h; simp at h
    | ok st1 =>
      rw [hh] at h
      obtain ⟨c1, c2, c3, c4⟩ := ih st1 st' h
      cases e with
      | startTag tag attrs =>
        obtain ⟨ht, -, hva, -⟩ := (handle_starttag_ok_iff st tag attrs st1).mp hh
        have hattrs : attrs.all attrOk = true := (validateAttrs_ok_iff attrs).mp hva
        exact ⟨by simp [eventTagsAllowed, ht, c1],
          by simp [attrsAllValid, hattrs, c2],
          by simp [noSelfClosing, c3], by simp [noComments, c4]⟩
      | endTag tag =>
        obtain ⟨ht, -⟩ := (handle_endtag_ok_iff st tag st1).mp hh
        exact ⟨by simp [eventTagsAllowed, ht, c1],
          by simp [attrsAllValid, c2],
          by simp [noSelfClosing, c3], by simp [noComments, c4]⟩
      | startEndTag tag attrs => simp [processEvent] at hh
      | comment d => simp [processEvent] at hh
      | text d =>
        exact ⟨by simp [eventTagsAllowed, c1],
          by simp [attrsAllValid, c2],
          by simp [noSelfClosing, c3], by simp [noComments, c4]⟩

/-- A successful validator run evolves the stack exactly as the reference
stack matcher does. -/
theorem processEvents_ok_balAux (events : List HtmlEvent) :
    ∀ st st', processEvents st events = .ok st' →
      balAux st.stack events = some st'.stack := by
  induction events with
  | nil =>
    intro st st' h
    simp [processEvents] at h
    subst h
    rfl
  | cons e es ih =>
    intro st st' h
    rw [processEvents_cons] at h
    cases hh : processEvent st e with
    | error msg => rw [hh] at h; simp at h
    | ok st1 =>
      rw [hh] at h
      have hb := ih st1 st' h
      cases e with
      | startTag tag attrs =>
        obtain ⟨-, -, -, hst⟩ := (handle_starttag_ok_iff st tag attrs st1).mp hh
        subst hst
        simpa [balAux] using hb
      | endTag tag =>
        obtain ⟨-, r, hstack, hst⟩ := (handle_endtag_ok_iff st tag st1).mp hh
        subst hst
        rw [hstack]
        simpa [balAux] using hb
      | startEndTag tag attrs => simp [processEvent] at hh
      | comment d => simp [processEvent] at hh
      | text d =>
        simp [processEvent] at hh
        subst hh
        simpa [balAux] using hb

/-- A successful run from the initial state that saw the root began with an
opening `<div>` as the first tag. -/
theorem processEvents_root_firstTag (events : List HtmlEvent) :
    ∀ st', processEvents ⟨[], false⟩ events = .ok st' → st'.sawRoot = true →
      firstTagIsDivStart events = true := by
  induction events with
  | nil =>
    intro st' h hsaw
    simp [processEvents] at h
    subst h
    simp at hsaw
  | cons e es ih =>
    intro st' h hsaw
    rw [processEvents_cons] at h
    cases hh : processEvent ⟨[], false⟩ e with
    | error msg => rw [hh] at h; simp at h
    | ok st1 =>
      rw [hh] at h
      cases e with
      | startTag tag attrs =>
        obtain ⟨-, hdiv, -, -⟩ := (handle_starttag_ok_iff _ tag attrs st1).mp hh
        have hd : tag = "div" := by
          rcases hdiv with hd | hd
          · simp at hd
          · exact hd
        simp [firstTagIsDivStart, hd]
      | endTag tag =>
        have hh' : handle_endtag ⟨[], false⟩ tag = .ok st1 := hh
        obtain ⟨-, r, hstack, -⟩ := (handle_endtag_ok_iff ⟨[], false⟩ tag st1).mp hh'
        simp at hstack
      | startEndTag tag attrs => simp [processEvent] at hh
      | comment d => simp [processEvent] at hh
      | text d =>
        simp [processEvent] at hh
        subst hh
        exact ih st' h hsaw

/-- When all of the claim's conditions hold, the validator run succeeds and
ends with the matcher's final stack, having seen the root iff some start
tag occurred. -/
theorem processEvents_complete (events : List HtmlEvent) :
    ∀ (st : VState) (s'' : List String),
      eventTagsAllowed events = true → attrsAllValid events = true →
      noSelfClosing events = true → noComments events = true →
      balAux st.stack events = some s'' →
      (st.sawRoot = true ∨ firstStartIsDiv events = true) →
      processEvents st events = .ok ⟨s'', st.sawRoot || anyStartTag events⟩ := by
  induction events with
  | nil =>
    intro st s'' _ _ _ _ hbal _
    simp [balAux] at hbal
    subst hbal
    simp [processEvents, anyStartTag]
  | cons e es ih =>
    intro st s'' hta hav hns hnc hbal hD
    cases e with
    | text d =>
      rw [processEvents_cons]
      show processEvents st es = .ok ⟨s'', st.sawRoot || anyStartTag (.text d :: es)⟩
      exact ih st s'' hta hav hns hnc hbal hD
    | startTag tag attrs =>
      have hta' : allowedHtmlRowTags.contains tag = true ∧ eventTagsAllowed es = true := by
        simpa [eventTagsAllowed, Bool.and_eq_true] using hta
      have hav' : attrs.all attrOk = true ∧ attrsAllValid es = true := by
        simpa [attrsAllValid, Bool.and_eq_true] using hav
      have hdiv : st.sawRoot = true ∨ tag = "div" := by
        rcases hD with hd | hd
        · exact Or.inl hd
        · right
          simpa [firstStartIsDiv] using hd
      have hok : processEvent st (.startTag tag attrs) = .ok ⟨tag :: st.stack, true⟩ :=
        (handle_starttag_ok_iff st tag attrs _).mpr
          ⟨by simpa using hta'.1, hdiv, (validateAttrs_ok_iff attrs).mpr hav'.1, rfl⟩
      rw [processEvents_cons, hok]
      have hres := ih ⟨tag :: st.stack, true⟩ s'' hta'.2 hav'.2 hns hnc hbal (Or.inl rfl)
      rw [show (st.sawRoot || anyStartTag (.startTag tag attrs :: es)) = true by
        simp [anyStartTag]]
      exact hres
    | endTag tag =>
      have hta' : allowedHtmlRowTags.contains tag = true ∧ eventTagsAllowed es = true := by
        simpa [eventTagsAllowed, Bool.and_eq_true] using hta
      cases hstack : st.stack with
      | nil =>
        rw [hstack] at hbal
        simp [balAux] at hbal
      | cons s0 r =>
        rw [hstack] at hbal
        by_cases heq : s0 = tag
        · subst heq
          have hbal' : balAux r es = some s'' := by
            simpa [balAux] using hbal
          have hok : processEvent st (.endTag s0) = .ok ⟨r, st.sawRoot⟩ :=
            (handle_endtag_ok_iff st s0 _).mpr
              ⟨by simpa using hta'.1, r, hstack, rfl⟩
          rw [processEvents_cons, hok]
          exact ih ⟨r, st.sawRoot⟩ s'' hta'.2 hav hns hnc hbal' hD
        · simp [balAux, heq] at hbal
    | startEndTag tag attrs => simp [noSelfClosing] at hns
    | comment d => simp [noComments] at hnc

theorem firstTagIsDivStart_imp (events : List HtmlEvent)
    (h : firstTagIsDivStart events = true) :
    firstStartIsDiv events = true ∧ anyStartTag events = true := by
  induction events with
  | nil => simp [firstTagIsDivStart] at h
  | cons e es ih =>
    cases e with
    | startTag tag attrs => exact ⟨h, rfl⟩
    | endTag tag => simp [firstTagIsDivStart] at h
    | startEndTag tag attrs => simp [firstTagIsDivStart] at h
    | comment d => exact ih h
    | text d => exact ih h

/-- C1: at the parse-event level, the HTML fragment validator accepts a
fragment if and only if every opening and closing tag is in {div, pre,
span}, the first tag is an opening `<div>`, every attribute is a `class`
with a non-empty allow-listed token list and no attribute name starts with
"on", there is no self-closing tag and no comment, and the open/close tag
stack balances exactly; otherwise it raises HtmlSanitizationError. -/
theorem c1_validate_rendered_row_iff (events : List HtmlEvent) :
    isErr (validate_rendered_row events) = false ↔ specValid events = true := by
  constructor
  · intro h
    unfold validate_rendered_row at h
    cases hp : processEvents ⟨[], false⟩ events with
    | error e => rw [hp] at h; simp [isErr] at h
    | ok st =>
      rw [hp] at h
      have hc : validate_complete st = .ok () := (isErr_false_iff _).mp h
      obtain ⟨hsaw, hstk⟩ := (validate_complete_ok_iff st).mp hc
      obtain ⟨c1, c2, c3, c4⟩ := processEvents_ok_scan events _ _ hp
      have hbal := processEvents_ok_balAux events _ _ hp
      rw [hstk] at hbal
      have hbal' : balAux [] events = some [] := hbal
      have hft := processEvents_root_firstTag events st hp hsaw
      unfold specValid
      simp [c1, c2, c3, c4, hft, hbal']
  · intro h
    unfold specValid at h
    simp only [Bool.and_eq_true, decide_eq_true_eq] at h
    obtain ⟨⟨⟨⟨⟨hta, hft⟩, hav⟩, hns⟩, hnc⟩, hbal⟩ := h
    obtain ⟨hfs, hany⟩ := firstTagIsDivStart_imp events hft
    have hrun := processEvents_complete events ⟨[], false⟩ [] hta hav hns hnc hbal
      (Or.inr hfs)
    simp only [hany, Bool.or_true] at hrun
    unfold validate_rendered_row
    rw [hrun]
    rfl

/-- C2: a write to an existing (non-empty) HTML document raises whenever the
rendered row fails the fragment validator or the current size plus the
encoded row exceeds the document byte cap, and in that case the document
bytes on disk are unchanged; the write succeeds — appending the row exactly
once — if and only if the row validates and fits under the cap. -/
theorem c2_html_write (template doc row : String) (rowEvents : List HtmlEvent)
    (maxDocBytes : Nat) (hdoc : doc.utf8ByteSize > 0) :
    (isErr (html_write template doc row rowEvents maxDocBytes).1 = true →
        (html_write template doc row rowEvents maxDocBytes).2 = doc) ∧
      (isErr (html_write template doc row rowEvents maxDocBytes).1 = false ↔
        (isErr (validate_rendered_row rowEvents) = false ∧
          doc.utf8ByteSize + row.utf8ByteSize ≤ maxDocBytes)) ∧
      (isErr (html_write template doc row rowEvents maxDocBytes).1 = false →
        (html_write template doc row rowEvents maxDocBytes).2 = doc ++ row) := by
  unfold html_write
  rw [if_pos hdoc]
  cases hv : validate_rendered_row rowEvents with
  | error e =>
    simp [isErr]
  | ok u =>
    cases u
    by_cases hsz : doc.utf8ByteSize + row.utf8ByteSize > maxDocBytes
    · simp [isErr, hsz]
    · simp [isErr, hsz]
      omega

/-- Witness for C2: on the concrete six-byte document "<html>", a row whose
event stream is empty fails the validator (no root tag), the write raises,
and the document bytes are unchanged. -/
theorem c2_html_write_witness :
    ("<html>" : String).utf8ByteSize > 0 ∧
      (isErr (html_write "t" "<html>" "x" [] 100).1 = true →
          (html_write "t" "<html>" "x" [] 100).2 = "<html>") ∧
        (isErr (html_write "t" "<html>" "x" [] 100).1 = false ↔
          (isErr (validate_rendered_row []) = false ∧
            ("<html>" : String).utf8ByteSize + ("x" : String).utf8ByteSize ≤ 100)) ∧
        (isErr (html_write "t" "<html>" "x" [] 100).1 = false →
          (html_write "t" "<html>" "x" [] 100).2 = "<html>" ++ "x") :=
  ⟨by decide, c2_html_write "t" "<html>" "x" [] 100 (by decide)⟩

/-- The close-scan returns the first index at or after the cursor holding
the matching, non-escaped quote, and that index is in bounds. -/
theorem findCloseAux_some (t : List Char) (quote : Char) (start : Nat) :
    ∀ fuel cursor e, findCloseAux fuel t quote start cursor = some e →
      cursor ≤ e ∧ e < t.length ∧ charAt t e = quote ∧
        (e = start ∨ charAt t (e - 1) ≠ '\\') ∧
        ∀ j, cursor ≤ j → j < e →
          ¬(charAt t j = quote ∧ (j = start ∨ charAt t (j - 1) ≠ '\\')) := by
  intro fuel
  induction fuel with
  | zero => intro cursor e h; simp [findCloseAux] at h
  | succ fuel ih =>
    intro cursor e h
    unfold findCloseAux at h
    by_cases hlt : cursor < t.length
    · rw [if_pos hlt] at h
      by_cases hc : charAt t cursor = quote ∧ (cursor = start ∨ charAt t (cursor - 1) ≠ '\\')
      · rw [if_pos hc] at h
        injection h with he
        subst he
        exact ⟨Nat.le_refl _, hlt, hc.1, hc.2,
          fun j hj1 hj2 => absurd (Nat.lt_of_le_of_lt hj1 hj2) (Nat.lt_irrefl _)⟩
      · rw [if_neg hc] at h
        obtain ⟨h1, h2, h3, h4, h5⟩ := ih (cursor + 1) e h
        refine ⟨by omega, h2, h3, h4, ?_⟩
        intro j hj1 hj2
        by_cases hjc : j = cursor
        · subst hjc; exact hc
        · exact h5 j (by omega) hj2
    · rw [if_neg hlt] at h; simp at h

/-- Every span the outer scan emits opens right after a quote character
located past the scan position, and closes where the close-scan says. -/
theorem quotedSpansAux_mem (t : List Char) :
    ∀ fuel idx s e, (s, e) ∈ quotedSpansAux fuel t idx →
      1 ≤ s ∧ idx < s ∧
        (charAt t (s - 1) = '"' ∨ charAt t (s - 1) = '\'') ∧
        findClose t (charAt t (s - 1)) s = some e := by
  intro fuel
  induction fuel with
  | zero => intro idx s e h; simp [quotedSpansAux] at h
  | succ fuel ih =>
    intro idx s e h
    unfold quotedSpansAux at h
    by_cases hlt : idx < t.length
    · rw [if_pos hlt] at h
      by_cases hq : charAt t idx = '"' ∨ charAt t idx = '\''
      · rw [if_pos hq] at h
        cases hf : findClose t (charAt t idx) (idx + 1) with
        | some cursor =>
          rw [hf] at h
          rcases List.mem_cons.mp h with h1 | h1
          · injection h1 with hs he
            subst hs
            subst he
            refine ⟨by omega, by omega, ?_, ?_⟩
            · rw [Nat.add_sub_cancel]; exact hq
            · rw [Nat.add_sub_cancel]; exact hf
          · have hcur : idx + 1 ≤ cursor :=
              (findCloseAux_some t (charAt t idx) (idx + 1) (t.length + 1)
                (idx + 1) cursor hf).1
            obtain ⟨g1, g2, g3, g4⟩ := ih (cursor + 1) s e h1
            exact ⟨g1, by omega, g3, g4⟩
        | none =>
          rw [hf] at h
          obtain ⟨g1, g2, g3, g4⟩ := ih (idx + 1) s e h
          exact ⟨g1, by omega, g3, g4⟩
      · rw [if_neg hq] at h
        obtain ⟨g1, g2, g3, g4⟩ := ih (idx + 1) s e h
        exact ⟨g1, by omega, g3, g4⟩
    · rw [if_neg hlt] at h; simp at h

/-- C9: every emitted quoted-content span (s, e) opens right after a quote
character, closes at the first matching non-escaped quote after the opener
(so an unterminated quote contributes no span), and `token_class` follows
the fixed priority quote-mark > quote-content > lhs > digit ("number") >
punctuation set .,+-=<>:;[]\x7b\x7d ("punct") > "base". -/
theorem c9_colorizer (t : List Char) :
    (∀ s e, (s, e) ∈ quoted_content_spans t →
      1 ≤ s ∧ e < t.length ∧
        (charAt t (s - 1) = '"' ∨ charAt t (s - 1) = '\'') ∧
        charAt t e = charAt t (s - 1) ∧
        (e = s ∨ charAt t (e - 1) ≠ '\\') ∧
        ∀ j, s ≤ j → j < e →
          ¬(charAt t j = charAt t (s - 1) ∧ (j = s ∨ charAt t (j - 1) ≠ '\\'))) ∧
    (∀ (index : Nat) (ch : Char) (qs : List (Nat × Nat)) (qm : List Nat)
        (ls : List (Nat × Nat)),
      (qm.contains index = true → token_class index ch qs qm ls = "quote-mark") ∧
      (qm.contains index = false → index_in_spans index qs = true →
        token_class index ch qs qm ls = "quote-content") ∧
      (qm.contains index = false → index_in_spans index qs = false →
        index_in_spans index ls = true → token_class index ch qs qm ls = "lhs") ∧
      (qm.contains index = false → index_in_spans index qs = false →
        index_in_spans index ls = false → ch.isDigit = true →
        token_class index ch qs qm ls = "number") ∧
      (qm.contains index = false → index_in_spans index qs = false →
        index_in_spans index ls = false → ch.isDigit = false →
        pyPunctuation.contains ch = true →
        token_class index ch qs qm ls = "punct") ∧
      (qm.contains index = false → index_in_spans index qs = false →
        index_in_spans index ls = false → ch.isDigit = false →
        pyPunctuation.contains ch = false →
        token_class index ch qs qm ls = "base")) := by
  constructor
  · intro s e h
    obtain ⟨g1, g2, g3, g4⟩ := quotedSpansAux_mem t (t.length + 1) 0 s e h
    obtain ⟨f1, f2, f3, f4, f5⟩ :=
      findCloseAux_some t (charAt t (s - 1)) s (t.length + 1) s e g4
    exact ⟨g1, f2, g3, f3, f4, f5⟩
  · intro index ch qs qm ls
    refine ⟨?_, ?_, ?_, ?_, ?_, ?_⟩ <;> intros <;> simp_all [token_class]

/-- Witness for C9: on the concrete line "a'b'" the scan emits exactly the
content span (2, 3) and the span theorem applies to it. -/
theorem c9_colorizer_witness :
    (2, 3) ∈ quoted_content_spans ("a'b'".data) ∧
      (1 ≤ 2 ∧ 3 < ("a'b'".data).length ∧
        (charAt ("a'b'".data) 1 = '"' ∨ charAt ("a'b'".data) 1 = '\'') ∧
        charAt ("a'b'".data) 3 = charAt ("a'b'".data) 1 ∧
        (3 = 2 ∨ charAt ("a'b'".data) 2 ≠ '\\') ∧
        ∀ j, 2 ≤ j → j < 3 →
          ¬(charAt ("a'b'".data) j = charAt ("a'b'".data) 1 ∧
            (j = 2 ∨ charAt ("a'b'".data) (j - 1) ≠ '\\'))) :=
  ⟨by decide, (c9_colorizer ("a'b'".data)).1 2 3 (by decide)⟩

theorem processWrites_cons (maxWrites : Nat) (windowSeconds : Int)
    (st : ThrottleState) (h : String) (t : Int) (rest : List (String × Int)) :
    processWrites maxWrites windowSeconds st ((h, t) :: rest) =
      ((h, !(should_drop_write_due_to_throttle maxWrites windowSeconds st h t).1) ::
          (processWrites maxWrites windowSeconds
            (should_drop_write_due_to_throttle maxWrites windowSeconds st h t).2 rest).1,
        (processWrites maxWrites windowSeconds
          (should_drop_write_due_to_throttle maxWrites windowSeconds st h t).2 rest).2) :=
  rfl

/-- Inside an already-open, unexpired window the throttle step neither
restarts the window nor resets the counter: it drops iff the shared write
counter has reached the cap. -/
theorem should_drop_in_window (maxWrites : Nat) (windowSeconds : Int)
    (st : ThrottleState) (handle : String) (now : Int)
    (hstart : 0 < st.windowStartedAt)
    (hnow : now - st.windowStartedAt < windowSeconds) :
    should_drop_write_due_to_throttle maxWrites windowSeconds st handle now =
      (if st.writesInCurrentWindow ≥ maxWrites then
        (true,
          { st with
              droppedInCurrentWindow := st.droppedInCurrentWindow + 1,
              droppedTotal := st.droppedTotal + 1,
              droppedByHandle := fun h =>
                if h = handle then st.droppedByHandle handle + 1
                else st.droppedByHandle h })
      else (false, { st with writesInCurrentWindow := st.writesInCurrentWindow + 1 })) := by
  unfold should_drop_write_due_to_throttle
  rw [if_neg (by omega : ¬ st.windowStartedAt ≤ 0)]
  dsimp only
  rw [if_neg (by omega : ¬ now - st.windowStartedAt ≥ windowSeconds)]

/-- C5 counterexample: with max_writes_per_second = 1 and two different
registered handles written at the same instant inside one window, the write
to handle "b" is dropped although "b" had no prior admissions — the
admission of handle "a" consumed the shared budget, refuting per-handle
independence of the throttle. -/
theorem c5_counterexample :
    (processWrites 1 1 initialThrottle [("a", 5), ("b", 5)]).1 =
        [("a", true), ("b", false)] ∧
      (processWrites 1 1 initialThrottle [("a", 5), ("b", 5)]).2.droppedByHandle "b" = 1 := by
  constructor <;> rfl

/-- C5 (amended): the throttle bounds total admissions per window globally:
for any sequence of write attempts inside a single open window, at most
`max_writes_per_second` minus the already-used budget are admitted in
total, and hence at most that many to any single handle; drops are counted
per-handle and in aggregate. -/
theorem c5_throttle_window_bound (maxWrites : Nat) (windowSeconds : Int)
    (calls : List (String × Int)) :
    ∀ st : ThrottleState, 0 < st.windowStartedAt →
      (∀ p ∈ calls, p.2 - st.windowStartedAt < windowSeconds) →
      countAdmitted (processWrites maxWrites windowSeconds st calls).1 ≤
          maxWrites - st.writesInCurrentWindow ∧
        ∀ h, countAdmittedTo h (processWrites maxWrites windowSeconds st calls).1 ≤
          maxWrites - st.writesInCurrentWindow := by
  induction calls with
  | nil =>
    intro st _ _
    exact ⟨by simp [processWrites, countAdmitted],
      fun h => by simp [processWrites, countAdmittedTo]⟩
  | cons c rest ih =>
    intro st hstart htimes
    obtain ⟨h, t⟩ := c
    have hhead : t - st.windowStartedAt < windowSeconds :=
      htimes (h, t) (List.mem_cons_self _ _)
    rw [processWrites_cons,
      should_drop_in_window maxWrites windowSeconds st h t hstart hhead]
    by_cases hw : st.writesInCurrentWindow ≥ maxWrites
    · rw [if_pos hw]
      have hrest := ih
        { st with
            droppedInCurrentWindow := st.droppedInCurrentWindow + 1,
            droppedTotal := st.droppedTotal + 1,
            droppedByHandle := fun h' =>
              if h' = h then st.droppedByHandle h + 1 else st.droppedByHandle h' }
        hstart (fun p hp => htimes p (List.mem_cons_of_mem _ hp))
      constructor
      · simpa [countAdmitted, List.countP_cons] using hrest.1
      · intro h'
        simpa [countAdmittedTo, List.countP_cons] using hrest.2 h'
    · rw [if_neg hw]
      have hrest := ih { st with writesInCurrentWindow := st.writesInCurrentWindow + 1 }
        hstart (fun p hp => htimes p (List.mem_cons_of_mem _ hp))
      have hb1 := hrest.1
      constructor
      · simp only [countAdmitted, List.countP_cons] at hb1 ⊢
        simp at hb1 ⊢
        omega
      · intro h'
        have hb2 := hrest.2 h'
        simp only [countAdmittedTo, List.countP_cons] at hb2 ⊢
        by_cases hh : h = h'
        · simp [hh] at hb2 ⊢
          omega
        · simp [hh] at hb2 ⊢
          omega

/-- Witness for C5 (amended): a single write inside an open window with cap
1 and no used budget — at most one admission in total and to any handle. -/
theorem c5_throttle_window_bound_witness :
    (0 : Int) < 5 ∧
      (∀ p ∈ ([("a", (5 : Int))] : List (String × Int)), p.2 - 5 < 1) ∧
      (countAdmitted (processWrites 1 1 ⟨5, 0, 0, 0, fun _ => 0⟩ [("a", 5)]).1 ≤ 1 - 0 ∧
        ∀ h, countAdmittedTo h
          (processWrites 1 1 ⟨5, 0, 0, 0, fun _ => 0⟩ [("a", 5)]).1 ≤ 1 - 0) :=
  ⟨by decide, by simp,
    c5_throttle_window_bound 1 1 [("a", 5)] ⟨5, 0, 0, 0, fun _ => 0⟩
      (by decide) (by simp)⟩

/-- C7: with max_writes_per_second = 1, three immediate writes to one
registered handle "app" inside a single throttle window yield exactly one
admitted (persisted) write, and get_throttle_stats reports
dropped_total = 2 and dropped_by_handle["app"] = 2. -/
theorem c7_three_writes :
    countAdmitted (processWrites 1 1 initialThrottle
        [("app", 5), ("app", 5), ("app", 5)]).1 = 1 ∧
      (get_throttle_stats (processWrites 1 1 initialThrottle
        [("app", 5), ("app", 5), ("app", 5)]).2).1 = 2 ∧
      (get_throttle_stats (processWrites 1 1 initialThrottle
        [("app", 5), ("app", 5), ("app", 5)]).2).2 "app" = 2 := by
  refine ⟨?_, ?_, ?_⟩ <;> rfl

/-- C10: registering a plain-text or HTML facility under a syntactically
valid, non-"console" handle that is already registered does not raise and
does not report failure: the call returns True and the new facility
silently replaces the previously registered one in the facility map,
leaving every other handle untouched. -/
theorem c10_reregistration (rs : RouterState)
    (logHandle path title theme : String) (refreshSeconds rot : Int)
    (maxTitleLength : Nat) (old : FacilityModel)
    (hval : validate_handle logHandle = .ok ())
    (hcon : logHandle ≠ "console")
    (hrot : 0 ≤ rot)
    (hreg : rs.facilities logHandle = some old)
    (htheme : pyStripLower theme = "dark" ∨ pyStripLower theme = "light")
    (href : 0 < refreshSeconds)
    (htitle : title.length ≤ maxTitleLength) :
    (∃ rs', add_log_file rs logHandle path rot .success = .ok (true, rs') ∧
      rs'.facilities logHandle = some (.file logHandle path rot.toNat) ∧
      ∀ h, h ≠ logHandle → rs'.facilities h = rs.facilities h) ∧
    (∃ rs', add_html_log_file rs logHandle path title theme refreshSeconds rot
        maxTitleLength .success = .ok (true, rs') ∧
      rs'.facilities logHandle = some (.html logHandle path title (pyStripLower theme)) ∧
      ∀ h, h ≠ logHandle → rs'.facilities h = rs.facilities h) := by
  constructor
  · refine ⟨⟨fun h =>
        if h = logHandle then some (.file logHandle path rot.toNat)
        else rs.facilities h⟩, ?_, ?_, ?_⟩
    · unfold add_log_file
      rw [if_neg hcon, if_neg (by omega : ¬ rot < 0), hval]
    · simp
    · intro h hne
      simp [hne]
  · refine ⟨⟨fun h =>
        if h = logHandle then some (.html logHandle path title (pyStripLower theme))
        else rs.facilities h⟩, ?_, ?_, ?_⟩
    · unfold add_html_log_file
      rw [if_neg hcon, if_neg (by omega : ¬ rot < 0), if_neg (not_not_intro htheme),
        if_neg (by omega : ¬ refreshSeconds ≤ 0),
        if_neg (by omega : ¬ title.length > maxTitleLength), hval]
    · simp
    · intro h hne
      simp [hne]

/-- Witness for C10: re-registering the already-registered handle "app"
over the concrete example router succeeds for both facility kinds. -/
theorem c10_reregistration_witness :
    validate_handle "app" = .ok () ∧ ("app" : String) ≠ "console" ∧
      ((0 : Int) ≤ 0) ∧ exampleRouter.facilities "app" = some (.file "app" "p" 0) ∧
      (pyStripLower "dark" = "dark" ∨ pyStripLower "dark" = "light") ∧
      ((0 : Int) < 10) ∧ ("T" : String).length ≤ 256 ∧
      ((∃ rs', add_log_file exampleRouter "app" "q" 0 .success = .ok (true, rs') ∧
          rs'.facilities "app" = some (.file "app" "q" (0 : Int).toNat) ∧
          ∀ h, h ≠ "app" → rs'.facilities h = exampleRouter.facilities h) ∧
        (∃ rs', add_html_log_file exampleRouter "app" "q" "T" "dark" 10 0 256 .success =
            .ok (true, rs') ∧
          rs'.facilities "app" = some (.html "app" "q" "T" (pyStripLower "dark")) ∧
          ∀ h, h ≠ "app" → rs'.facilities h = exampleRouter.facilities h)) :=
  ⟨by rfl, by decide, by decide, by decide, by decide, by decide, by decide,
    c10_reregistration exampleRouter "app" "q" "T" "dark" 10 0 256
      (.file "app" "p" 0) (by rfl) (by decide) (by decide) (by decide)
      (by decide) (by decide) (by decide)⟩

end Pylogrouter
